import Mathlib

/-!
# Brand-Design: the 3D viewer effect of `src/App.jsx`

A shallow embedding of the `useEffect` body of the `App` component: the scene set-up,
the `basicAnimate` render loop, the three `loader.load` callbacks, `handleResize` and
the effect's cleanup function.

Coordinates are exact rationals.  The three.js, GSAP, Lenis and browser primitives that
the effect calls (`Box3`, `Object3D.traverse`, `requestAnimationFrame`, event listeners,
`gsap.from`) are not part of the repository; they are embedded here following their
documented behaviour, each under the name it has in the library.
-/

namespace BrandDesign

/-! ## three.js: vectors and matrices -/

/-- A `THREE.Vector3` with rational components. -/
structure Vector3 where
  x : ℚ
  y : ℚ
  z : ℚ
deriving DecidableEq, Repr

namespace Vector3

/-- The vector `(0, 0, 0)`, the value of `new THREE.Vector3()`. -/
def zero : Vector3 := ⟨0, 0, 0⟩

/-- Componentwise sum, `Vector3.add`. -/
def add (a b : Vector3) : Vector3 := ⟨a.x + b.x, a.y + b.y, a.z + b.z⟩

/-- Componentwise difference, `Vector3.sub`. -/
def sub (a b : Vector3) : Vector3 := ⟨a.x - b.x, a.y - b.y, a.z - b.z⟩

/-- Componentwise negation, `Vector3.negate`. -/
def negate (a : Vector3) : Vector3 := ⟨-a.x, -a.y, -a.z⟩

/-- Scaling by a number, `Vector3.multiplyScalar`. -/
def multiplyScalar (a : Vector3) (k : ℚ) : Vector3 := ⟨a.x * k, a.y * k, a.z * k⟩

/-- Componentwise minimum, `Vector3.min`. -/
def min (a b : Vector3) : Vector3 := ⟨Min.min a.x b.x, Min.min a.y b.y, Min.min a.z b.z⟩

/-- Componentwise maximum, `Vector3.max`. -/
def max (a b : Vector3) : Vector3 := ⟨Max.max a.x b.x, Max.max a.y b.y, Max.max a.z b.z⟩

end Vector3

/-- The upper-left 3x3 block of a `THREE.Matrix4`, stored by columns. -/
structure Matrix3 where
  c1 : Vector3
  c2 : Vector3
  c3 : Vector3
deriving DecidableEq, Repr

/-- The linear map of a matrix applied to a vector, `Vector3.applyMatrix3`. -/
def Vector3.applyMatrix3 (v : Vector3) (m : Matrix3) : Vector3 :=
  ((m.c1.multiplyScalar v.x).add (m.c2.multiplyScalar v.y)).add (m.c3.multiplyScalar v.z)

namespace Matrix3

/-- The identity matrix. -/
def identity : Matrix3 := ⟨⟨1, 0, 0⟩, ⟨0, 1, 0⟩, ⟨0, 0, 1⟩⟩

/-- The matrix product `a * b`. -/
def multiply (a b : Matrix3) : Matrix3 :=
  ⟨b.c1.applyMatrix3 a, b.c2.applyMatrix3 a, b.c3.applyMatrix3 a⟩

/-- Scaling of the three columns, as `Matrix4.scale` does. -/
def scale (m : Matrix3) (s : Vector3) : Matrix3 :=
  ⟨m.c1.multiplyScalar s.x, m.c2.multiplyScalar s.y, m.c3.multiplyScalar s.z⟩

end Matrix3

/-- An affine `THREE.Matrix4`: a 3x3 basis and a translation column (the last row is
`0 0 0 1` for every matrix an `Object3D` composes). -/
structure Matrix4 where
  basis : Matrix3
  position : Vector3
deriving DecidableEq, Repr

namespace Matrix4

/-- The identity transform. -/
def identity : Matrix4 := ⟨Matrix3.identity, Vector3.zero⟩

/-- The local matrix of an object, `Matrix4.compose(position, quaternion, scale)`;
the quaternion is given by its rotation matrix. -/
def compose (position : Vector3) (rotation : Matrix3) (scale : Vector3) : Matrix4 :=
  ⟨rotation.scale scale, position⟩

/-- The product `a * b`, `Matrix4.multiplyMatrices`. -/
def multiplyMatrices (a b : Matrix4) : Matrix4 :=
  ⟨a.basis.multiply b.basis, (b.position.applyMatrix3 a.basis).add a.position⟩

end Matrix4

/-- A point transformed by an affine matrix, `Vector3.applyMatrix4`. -/
def Vector3.applyMatrix4 (v : Vector3) (m : Matrix4) : Vector3 :=
  (v.applyMatrix3 m.basis).add m.position

/-! ## three.js: the scene graph -/

/-- The material parameters the success callback writes. -/
structure Material where
  metalness : ℚ
  roughness : ℚ
  envMapIntensity : ℚ
deriving DecidableEq, Repr

/-- The own properties of a scene-graph node: the `isMesh` flag, the material
(`none` when the property is absent or null, which the callback tests for; the loader
gives every mesh a material), the shadow flags, the local transform
(position, rotation matrix, scale) and the vertex positions of its geometry (empty for
a node that has none). -/
structure Node where
  isMesh : Bool
  material : Option Material
  castShadow : Bool
  receiveShadow : Bool
  position : Vector3
  rotation : Matrix3
  scale : Vector3
  vertices : List Vector3
deriving DecidableEq, Repr

/-- A `THREE.Object3D` subtree: a node and its children. -/
inductive Object3D where
  | mk (self : Node) (children : List Object3D)

namespace Object3D

/-- The own properties of the root of a subtree. -/
def self : Object3D → Node
  | mk n _ => n

/-- The children of the root of a subtree. -/
def children : Object3D → List Object3D
  | mk _ cs => cs

/-- Replace the own properties of the root, keeping the children. -/
def withSelf (o : Object3D) (n : Node) : Object3D := mk n o.children

mutual
/-- The documented `Object3D.traverse(callback)`: the callback runs on the node, then
on every descendant. -/
def traverse (callback : Node → Node) : Object3D → Object3D
  | mk n cs => mk (callback n) (traverseList callback cs)
/-- The loop of `traverse` over the children. -/
def traverseList (callback : Node → Node) : List Object3D → List Object3D
  | [] => []
  | c :: cs => traverse callback c :: traverseList callback cs
end

mutual
/-- The own properties of every node that `traverse` visits, in visiting order. -/
def nodes : Object3D → List Node
  | mk n cs => n :: nodesList cs
/-- The nodes of a list of subtrees. -/
def nodesList : List Object3D → List Node
  | [] => []
  | c :: cs => nodes c ++ nodesList cs
end

end Object3D

/-- A `THREE.Box3`: `empty` is the state after `makeEmpty()` (min `+∞`, max `-∞`),
`box min max` a box that contains at least one point. -/
inductive Box3 where
  | empty
  | box (min max : Vector3)
deriving DecidableEq, Repr

namespace Box3

/-- Growing a box to contain a point, `Box3.expandByPoint`. -/
def expandByPoint : Box3 → Vector3 → Box3
  | empty, p => box p p
  | box mn mx, p => box (mn.min p) (mx.max p)

/-- The box of a list of points, `Box3.setFromPoints`: `makeEmpty()`, then
`expandByPoint` for every point. For the vertex positions of a geometry this is its
`boundingBox` (`computeBoundingBox`). -/
def setFromPoints (points : List Vector3) : Box3 :=
  points.foldl expandByPoint empty

/-- The union of two boxes, `Box3.union`: componentwise `min` of the minima and `max` of
the maxima, so that an empty box (min `+∞`, max `-∞`) leaves the other as it is. -/
def union : Box3 → Box3 → Box3
  | b, empty => b
  | empty, box mn mx => box mn mx
  | box mn mx, box mn2 mx2 => box (mn.min mn2) (mx.max mx2)

/-- The eight corners of a box, in the order in which `Box3.applyMatrix4` lists them. -/
def corners (mn mx : Vector3) : List Vector3 :=
  [⟨mn.x, mn.y, mn.z⟩, ⟨mn.x, mn.y, mx.z⟩, ⟨mn.x, mx.y, mn.z⟩, ⟨mn.x, mx.y, mx.z⟩,
   ⟨mx.x, mn.y, mn.z⟩, ⟨mx.x, mn.y, mx.z⟩, ⟨mx.x, mx.y, mn.z⟩, ⟨mx.x, mx.y, mx.z⟩]

/-- A box under a matrix, `Box3.applyMatrix4`: an empty box stays empty; otherwise the
eight corners are transformed and the result is the box of the transformed corners. -/
def applyMatrix4 : Box3 → Matrix4 → Box3
  | empty, _ => empty
  | box mn mx, m => setFromPoints ((corners mn mx).map fun v => v.applyMatrix4 m)

mutual
/-- The documented `Box3.expandByObject(object)` with the default `precise = false`,
where `parent` is the world matrix of the parent of the object: the world matrix of the
node is `parent * local` (`updateWorldMatrix`), the bounding box of its geometry is
transformed by it (`applyMatrix4`) and united with the box, and the children follow
with the node's world matrix as their parent. -/
def expandByObject (parent : Matrix4) (b : Box3) : Object3D → Box3
  | Object3D.mk n cs =>
    expandByObjectList
      (parent.multiplyMatrices (Matrix4.compose n.position n.rotation n.scale))
      (b.union ((setFromPoints n.vertices).applyMatrix4
        (parent.multiplyMatrices (Matrix4.compose n.position n.rotation n.scale))))
      cs
/-- The loop of `expandByObject` over the children. -/
def expandByObjectList (parent : Matrix4) (b : Box3) : List Object3D → Box3
  | [] => b
  | c :: cs => expandByObjectList parent (expandByObject parent b c) cs
end

/-- The world-axis-aligned bounding box of a parentless object and its descendants,
`new THREE.Box3().setFromObject(object)`: `makeEmpty()`, then `expandByObject`. -/
def setFromObject (object : Object3D) : Box3 :=
  expandByObject Matrix4.identity empty object

/-- The center of a box, `Box3.getCenter`; `(0,0,0)` for the empty box. -/
def getCenter : Box3 → Vector3
  | empty => Vector3.zero
  | box mn mx => (mn.add mx).multiplyScalar 0.5

/-- The extent of a box, `Box3.getSize`; `(0,0,0)` for the empty box. -/
def getSize : Box3 → Vector3
  | empty => Vector3.zero
  | box mn mx => mx.sub mn

end Box3

/-- `Math.max` of three numbers. -/
def mathMax (a b c : ℚ) : ℚ := max (max a b) c

/-! ## GSAP tweens -/

/-- A tween of a three-component target: the values at progress 0 and at progress 1,
the duration in seconds and the name of the easing. -/
structure ScaleTween where
  start : Vector3
  finish : Vector3
  duration : ℚ
  ease : String
deriving DecidableEq, Repr

/-- The documented `gsap.from(target, vars)`: the tween runs from the values in `vars`
to the values the target has when the tween is created. -/
def gsapFrom (target : Vector3) (vars : Vector3) (duration : ℚ) (ease : String) :
    ScaleTween :=
  ⟨vars, target, duration, ease⟩

/-- The value a tween writes to its target `t` seconds after its start, for the easing
function `easeFn` (from progress to ratio): `start + (finish - start) * ratio`. -/
def ScaleTween.valueAt (tw : ScaleTween) (easeFn : ℚ → ℚ) (t : ℚ) : Vector3 :=
  tw.start.add ((tw.finish.sub tw.start).multiplyScalar (easeFn (t / tw.duration)))

/-- The tweens the effect registers. `scale` is the tween of `model.scale`; `rotationY`
is the tween of `model.rotation.y` to `turns` full turns (`turns * 2π`). -/
inductive Tween where
  | scale (tw : ScaleTween)
  | rotationY (turns : ℚ) (duration : ℚ) (ease : String) (repeatCount : ℤ)
deriving DecidableEq, Repr

/-! ## The state of the effect -/

/-- The children of the scene, by identity; `model` is the object held by the `model`
variable. -/
inductive SceneChild where
  | pointLight
  | ambientLight
  | model
deriving DecidableEq, Repr

/-- The `THREE.PerspectiveCamera`. `projectionAspect` is the aspect ratio that the
projection matrix was computed from at the last `updateProjectionMatrix()`. -/
structure PerspectiveCamera where
  fov : ℚ
  aspect : ℚ
  near : ℚ
  far : ℚ
  position : Vector3
  projectionAspect : ℚ
deriving DecidableEq, Repr

/-- The `THREE.WebGLRenderer`: the size given to `setSize`, and how often `render` and
`dispose` were called. -/
structure WebGLRenderer where
  width : ℕ
  height : ℕ
  renderCalls : ℕ
  disposeCalls : ℕ
deriving DecidableEq, Repr

/-- The listeners of the window's `resize` event, by function identity. -/
inductive Listener where
  | handleResize
deriving DecidableEq, Repr

/-- What the callbacks write to the console. -/
inductive LogEntry where
  | modelLoaded
  | progress (loaded total : ℕ)
  | error (error : String)
deriving DecidableEq, Repr

/-- Everything the effect creates or touches: the window (viewport size, `resize`
listeners, the map of animation frame callbacks by handle and the handle counter),
Lenis, the GSAP ticker and tweens, the scene, the camera, the renderer, the `model`
variable and the console. Every animation frame callback is `basicAnimate`. -/
structure AppState where
  innerWidth : ℕ
  innerHeight : ℕ
  resizeListeners : List Listener
  rafCallbacks : List ℕ
  rafIdentifier : ℕ
  lenisDestroyCalls : ℕ
  tickerCallbacks : ℕ
  sceneChildren : List SceneChild
  camera : PerspectiveCamera
  renderer : WebGLRenderer
  canvasAttached : Bool
  model : Option Object3D
  tweens : List Tween
  console : List LogEntry

/-! ## Browser primitives -/

/-- The documented `requestAnimationFrame(basicAnimate)`: the handle counter is
incremented and the callback is stored under the new handle. -/
def requestAnimationFrame (s : AppState) : AppState :=
  { s with rafIdentifier := s.rafIdentifier + 1,
           rafCallbacks := s.rafCallbacks ++ [s.rafIdentifier + 1] }

/-- The documented `cancelAnimationFrame(handle)`: the callback stored under the handle,
if any, is removed. -/
def cancelAnimationFrame (handle : ℕ) (s : AppState) : AppState :=
  { s with rafCallbacks := s.rafCallbacks.erase handle }

/-- The handle that `cancelAnimationFrame(basicAnimate)` receives: its argument is an
unsigned long, and a function object converts to `NaN`, hence to 0. Handles returned by
`requestAnimationFrame` start at 1. -/
def basicAnimateAsHandle : ℕ := 0

/-- The documented `addEventListener`: a listener already in the list is not added
again. -/
def addEventListener (l : Listener) (s : AppState) : AppState :=
  { s with resizeListeners :=
      if l ∈ s.resizeListeners then s.resizeListeners else s.resizeListeners ++ [l] }

/-- The documented `removeEventListener`: the matching listener is removed. -/
def removeEventListener (l : Listener) (s : AppState) : AppState :=
  { s with resizeListeners := s.resizeListeners.erase l }

/-- The `scene.add(model)` of three.js: the object leaves its place in the child list,
if it has one, and is pushed at the end. -/
def sceneAdd (c : SceneChild) (children : List SceneChild) : List SceneChild :=
  children.erase c ++ [c]

/-! ## The effect of `App.jsx` -/

/-- The render loop (`App.jsx`, lines 68-71): one `renderer.render(scene, camera)`, then
`requestAnimationFrame(basicAnimate)`. -/
def basicAnimate (s : AppState) : AppState :=
  requestAnimationFrame
    { s with renderer := { s.renderer with renderCalls := s.renderer.renderCalls + 1 } }

/-- The callback of `model.traverse` (lines 84-92): a mesh node that has a material gets
the three fixed material parameters; every node gets both shadow flags. -/
def patchNode (node : Node) : Node :=
  let node :=
    if node.isMesh && node.material.isSome then
      { node with material := node.material.map fun m =>
          { m with metalness := 0.3, roughness := 0.4, envMapIntensity := 1.5 } }
    else node
  { node with castShadow := true, receiveShadow := true }

/-- The centering step (lines 95-97): the center of the bounding box of the model is
subtracted from `model.position`. -/
def centerModel (model : Object3D) : Object3D :=
  let box := Box3.setFromObject model
  let center := box.getCenter
  model.withSelf { model.self with position := model.self.position.sub center }

/-- The camera distance (lines 101-103): 1.5 times the largest extent of the box. -/
def fitCamera (box : Box3) (camera : PerspectiveCamera) : PerspectiveCamera :=
  let size := box.getSize
  let maxDim := mathMax size.x size.y size.z
  { camera with position := { camera.position with z := maxDim * 1.5 } }

/-- The success callback of `loader.load` (lines 79-128), on the loaded `gltf.scene`. -/
def onLoad (s : AppState) (gltfScene : Object3D) : AppState :=
  let s := { s with console := s.console ++ [LogEntry.modelLoaded] }
  let model := gltfScene.traverse patchNode
  let box := Box3.setFromObject model
  let model := centerModel model
  let s := { s with sceneChildren := sceneAdd SceneChild.model s.sceneChildren }
  let s := { s with camera := fitCamera box s.camera }
  let model := model.withSelf { model.self with scale := ⟨1, 1, 1⟩ }
  let tw := gsapFrom model.self.scale ⟨1, 1, 1⟩ 2 "power3.out"
  let model := model.withSelf { model.self with scale := tw.start }
  let s := { s with tweens := s.tweens ++ [Tween.scale tw, Tween.rotationY 1 8 "none" (-1)] }
  let s := { s with model := some model }
  let s := cancelAnimationFrame basicAnimateAsHandle s
  basicAnimate s

/-- The progress callback (lines 129-131): one line on the console. -/
def onProgress (s : AppState) (loaded total : ℕ) : AppState :=
  { s with console := s.console ++ [LogEntry.progress loaded total] }

/-- The error callback (lines 132-134): one line on the console. -/
def onError (s : AppState) (error : String) : AppState :=
  { s with console := s.console ++ [LogEntry.error error] }

/-- The resize handler (lines 138-142): the aspect ratio is recomputed from the window,
the projection matrix is updated and the renderer is resized. The division is exact
here; the claims about it are for a positive height. -/
def handleResize (s : AppState) : AppState :=
  let camera := { s.camera with aspect := (s.innerWidth : ℚ) / (s.innerHeight : ℚ) }
  let camera := { camera with projectionAspect := camera.aspect }
  { s with camera := camera,
           renderer := { s.renderer with width := s.innerWidth, height := s.innerHeight } }

/-- The state after the effect body has run (lines 14-144) in a window of size
`w` by `h`; `hasContainer` says whether `modelRef.current` is set. The colours, the
tone mapping, the pixel ratio and the shadow map of the renderer and the lag smoothing
of the ticker are not represented. -/
def mount (w h : ℕ) (hasContainer : Bool) : AppState :=
  let camera : PerspectiveCamera :=
    { fov := 75, aspect := (w : ℚ) / (h : ℚ), near := 0.1, far := 1000,
      position := ⟨0, 1, 5⟩, projectionAspect := (w : ℚ) / (h : ℚ) }
  let s : AppState :=
    { innerWidth := w, innerHeight := h, resizeListeners := [], rafCallbacks := [],
      rafIdentifier := 0, lenisDestroyCalls := 0, tickerCallbacks := 1,
      sceneChildren := sceneAdd SceneChild.ambientLight (sceneAdd SceneChild.pointLight []),
      camera := camera,
      renderer := { width := w, height := h, renderCalls := 0, disposeCalls := 0 },
      canvasAttached := hasContainer, model := none, tweens := [], console := [] }
  let s := basicAnimate s
  addEventListener Listener.handleResize s

/-- The cleanup function of the effect (lines 147-151). -/
def cleanup (s : AppState) : AppState :=
  let s := { s with lenisDestroyCalls := s.lenisDestroyCalls + 1 }
  let s := { s with renderer := { s.renderer with disposeCalls := s.renderer.disposeCalls + 1 } }
  removeEventListener Listener.handleResize s

/-! ## Events -/

/-- One callback of a display refresh: a handle whose callback is still in the map is
removed from it and its callback, `basicAnimate`, is invoked. -/
def runCallback (s : AppState) (handle : ℕ) : AppState :=
  if handle ∈ s.rafCallbacks then
    basicAnimate { s with rafCallbacks := s.rafCallbacks.erase handle }
  else s

/-- One display refresh: the callbacks that are in the map when the refresh starts are
run in order; callbacks requested meanwhile wait for the next refresh. -/
def runFrame (s : AppState) : AppState :=
  s.rafCallbacks.foldl runCallback s

/-- One listener of a `resize` event. -/
def runListener (s : AppState) : Listener → AppState
  | Listener.handleResize => handleResize s

/-- A `resize` event: every registered listener runs. -/
def dispatchResize (s : AppState) : AppState :=
  s.resizeListeners.foldl runListener s

/-- What can happen to the mounted component: a display refresh, a resize of the window
to a new size, and the three callbacks of the loader. The loader calls the success or
the error callback at most once; sequences of events are not restricted to that here. -/
inductive Event where
  | frame
  | resize (w h : ℕ)
  | loadSuccess (gltfScene : Object3D)
  | loadProgress (loaded total : ℕ)
  | loadError (error : String)

/-- Whether an event is the success callback of the loader. -/
def Event.isLoadSuccess : Event → Bool
  | Event.loadSuccess _ => true
  | _ => false

/-- The state after one event. -/
def step (s : AppState) : Event → AppState
  | Event.frame => runFrame s
  | Event.resize w h => dispatchResize { s with innerWidth := w, innerHeight := h }
  | Event.loadSuccess gltfScene => onLoad s gltfScene
  | Event.loadProgress loaded total => onProgress s loaded total
  | Event.loadError error => onError s error

/-- The state after a sequence of events. -/
def run (s : AppState) (events : List Event) : AppState :=
  events.foldl step s

/-- The number of `renderer.render` calls that the next display refresh executes. -/
def rendersInNextFrame (s : AppState) : ℕ :=
  (runFrame s).renderer.renderCalls - s.renderer.renderCalls

/-! ## A stub model for the end-to-end scenario -/

/-- A stub mesh: one mesh node at the origin, unrotated and unscaled, whose geometry is
the eight corners of a box of size 2 x 4 x 6 centered at `(10, 0, 0)`. -/
def stubMesh : Object3D :=
  Object3D.mk
    { isMesh := true, material := some ⟨1, 1, 1⟩, castShadow := false,
      receiveShadow := false, position := ⟨0, 0, 0⟩, rotation := Matrix3.identity,
      scale := ⟨1, 1, 1⟩,
      vertices := [⟨9, -2, -3⟩, ⟨11, -2, -3⟩, ⟨9, 2, -3⟩, ⟨11, 2, -3⟩,
                   ⟨9, -2, 3⟩, ⟨11, -2, 3⟩, ⟨9, 2, 3⟩, ⟨11, 2, 3⟩] }
    []

/-- A rotated mesh: one mesh node at the origin whose geometry is the four points
`(1,0,0)`, `(-1,0,0)`, `(0,1,0)`, `(0,-1,0)` and whose rotation is the rotation about
the z axis with cosine 3/5 and sine 4/5. -/
def rotatedDiamond : Object3D :=
  Object3D.mk
    { isMesh := true, material := some ⟨1, 1, 1⟩, castShadow := false,
      receiveShadow := false, position := ⟨0, 0, 0⟩,
      rotation := ⟨⟨3 / 5, 4 / 5, 0⟩, ⟨-4 / 5, 3 / 5, 0⟩, ⟨0, 0, 1⟩⟩,
      scale := ⟨1, 1, 1⟩,
      vertices := [⟨1, 0, 0⟩, ⟨-1, 0, 0⟩, ⟨0, 1, 0⟩, ⟨0, -1, 0⟩] }
    []

/-- The nodes of the object held by the `model` variable; none while it is undefined. -/
def AppState.modelNodes (s : AppState) : List Node :=
  match s.model with
  | none => []
  | some m => m.nodes

/-- The root node of the stub mesh as the success callback leaves it: patched, moved
to `(-10, 0, 0)` and with scale `(1, 1, 1)`. -/
def loadedStubNode : Node :=
  { isMesh := true, material := some ⟨0.3, 0.4, 1.5⟩, castShadow := true,
    receiveShadow := true, position := ⟨-10, 0, 0⟩, rotation := Matrix3.identity,
    scale := ⟨1, 1, 1⟩,
    vertices := [⟨9, -2, -3⟩, ⟨11, -2, -3⟩, ⟨9, 2, -3⟩, ⟨11, 2, -3⟩,
                 ⟨9, -2, 3⟩, ⟨11, -2, 3⟩, ⟨9, 2, 3⟩, ⟨11, 2, 3⟩] }

/-! ## Bounding boxes under translation -/

/-- A matrix whose translation column is moved by `d`. -/
def Matrix4.translated (m : Matrix4) (d : Vector3) : Matrix4 := ⟨m.basis, m.position.add d⟩

/-- A box moved by `d`. -/
def Box3.translate (d : Vector3) : Box3 → Box3
  | Box3.empty => Box3.empty
  | Box3.box mn mx => Box3.box (mn.add d) (mx.add d)

/-- An object whose root position is moved by `d`. -/
def Object3D.moved (o : Object3D) (d : Vector3) : Object3D :=
  o.withSelf { o.self with position := o.self.position.add d }

theorem Vector3.eq_iff (a b : Vector3) : a = b ↔ a.x = b.x ∧ a.y = b.y ∧ a.z = b.z := by
  cases a; cases b; simp

theorem Vector3.sub_eq_add_negate (a b : Vector3) : a.sub b = a.add b.negate := by
  simp [Vector3.sub, Vector3.add, Vector3.negate, sub_eq_add_neg]

theorem applyMatrix4_translated (v : Vector3) (m : Matrix4) (d : Vector3) :
    v.applyMatrix4 (m.translated d) = (v.applyMatrix4 m).add d := by
  simp [Vector3.applyMatrix4, Matrix4.translated, Vector3.add, add_assoc]

theorem multiplyMatrices_translated (p l : Matrix4) (d : Vector3) :
    (p.translated d).multiplyMatrices l = (p.multiplyMatrices l).translated d := by
  simp [Matrix4.multiplyMatrices, Matrix4.translated, Vector3.add, add_assoc]

theorem identity_multiplyMatrices_compose_moved (p : Vector3) (r : Matrix3) (s d : Vector3) :
    Matrix4.identity.multiplyMatrices (Matrix4.compose (p.add d) r s)
      = (Matrix4.identity.multiplyMatrices (Matrix4.compose p r s)).translated d := by
  simp only [Matrix4.multiplyMatrices, Matrix4.compose, Matrix4.translated, Matrix4.identity,
    Matrix3.identity, Vector3.applyMatrix3, Vector3.add, Vector3.multiplyScalar, Vector3.zero,
    Matrix4.mk.injEq, Vector3.mk.injEq, true_and]
  refine ⟨?_, ?_, ?_⟩ <;> ring

theorem expandByPoint_translate (b : Box3) (p d : Vector3) :
    (b.translate d).expandByPoint (p.add d) = (b.expandByPoint p).translate d := by
  cases b with
  | empty => rfl
  | box mn mx =>
    simp [Box3.translate, Box3.expandByPoint, Vector3.min, Vector3.max, Vector3.add,
      min_add_add_right, max_add_add_right]

theorem foldl_expandByPoint_translate (pts : List Vector3) (d : Vector3) :
    ∀ b : Box3, (pts.map (fun v => v.add d)).foldl Box3.expandByPoint (b.translate d)
      = (pts.foldl Box3.expandByPoint b).translate d := by
  induction pts with
  | nil => intro b; rfl
  | cons p ps ih =>
    intro b
    simp only [List.map_cons, List.foldl_cons, expandByPoint_translate, ih]

theorem setFromPoints_translate (pts : List Vector3) (d : Vector3) :
    Box3.setFromPoints (pts.map (fun v => v.add d)) = (Box3.setFromPoints pts).translate d :=
  foldl_expandByPoint_translate pts d Box3.empty

theorem union_translate (a b : Box3) (d : Vector3) :
    (a.translate d).union (b.translate d) = (a.union b).translate d := by
  cases a <;> cases b <;>
    simp [Box3.translate, Box3.union, Vector3.min, Vector3.max, Vector3.add,
      min_add_add_right, max_add_add_right]

theorem box_applyMatrix4_translated (b : Box3) (m : Matrix4) (d : Vector3) :
    b.applyMatrix4 (m.translated d) = (b.applyMatrix4 m).translate d := by
  cases b with
  | empty => rfl
  | box mn mx =>
    simp only [Box3.applyMatrix4, applyMatrix4_translated]
    rw [← setFromPoints_translate, List.map_map]
    rfl

mutual
theorem expandByObject_translated (p : Matrix4) (d : Vector3) :
    ∀ (o : Object3D) (b : Box3),
      Box3.expandByObject (p.translated d) (b.translate d) o
        = (Box3.expandByObject p b o).translate d
  | Object3D.mk n cs, b => by
    simp only [Box3.expandByObject, multiplyMatrices_translated, box_applyMatrix4_translated,
      union_translate]
    exact expandByObjectList_translated _ d cs _
theorem expandByObjectList_translated (p : Matrix4) (d : Vector3) :
    ∀ (os : List Object3D) (b : Box3),
      Box3.expandByObjectList (p.translated d) (b.translate d) os
        = (Box3.expandByObjectList p b os).translate d
  | [], b => by simp [Box3.expandByObjectList]
  | c :: cs, b => by
    simp only [Box3.expandByObjectList]
    rw [expandByObject_translated p d c b]
    exact expandByObjectList_translated p d cs _
end

/-- Moving the root of an object by `d` moves its bounding box by `d`. -/
theorem setFromObject_moved (o : Object3D) (d : Vector3) :
    Box3.setFromObject (o.moved d) = (Box3.setFromObject o).translate d := by
  cases o with
  | mk n cs =>
    simp only [Box3.setFromObject, Object3D.moved, Object3D.withSelf, Object3D.self,
      Object3D.children, Box3.expandByObject, identity_multiplyMatrices_compose_moved,
      box_applyMatrix4_translated]
    have h : Box3.empty.union
        (((Box3.setFromPoints n.vertices).applyMatrix4
          (Matrix4.identity.multiplyMatrices
            (Matrix4.compose n.position n.rotation n.scale))).translate d)
        = (Box3.empty.union ((Box3.setFromPoints n.vertices).applyMatrix4
          (Matrix4.identity.multiplyMatrices
            (Matrix4.compose n.position n.rotation n.scale)))).translate d :=
      union_translate Box3.empty _ d
    rw [h]
    exact expandByObjectList_translated _ d cs _

theorem getSize_translate (b : Box3) (d : Vector3) : (b.translate d).getSize = b.getSize := by
  cases b with
  | empty => rfl
  | box mn mx => simp [Box3.translate, Box3.getSize, Vector3.sub, Vector3.add]

theorem getCenter_translate_negate_getCenter (b : Box3) :
    (b.translate b.getCenter.negate).getCenter = Vector3.zero := by
  cases b with
  | empty => rfl
  | box mn mx =>
    simp only [Box3.translate, Box3.getCenter, Vector3.add, Vector3.negate,
      Vector3.multiplyScalar, Vector3.zero, Vector3.mk.injEq]
    refine ⟨?_, ?_, ?_⟩ <;> norm_num <;> ring

theorem centerModel_eq_moved (model : Object3D) :
    centerModel model = model.moved (Box3.setFromObject model).getCenter.negate := by
  simp [centerModel, Object3D.moved, Vector3.sub_eq_add_negate]

theorem patchNode_transform (n : Node) :
    (patchNode n).position = n.position ∧ (patchNode n).rotation = n.rotation
      ∧ (patchNode n).scale = n.scale ∧ (patchNode n).vertices = n.vertices := by
  unfold patchNode
  split <;> simp

mutual
theorem expandByObject_traverse_patchNode (p : Matrix4) :
    ∀ (o : Object3D) (b : Box3),
      Box3.expandByObject p b (o.traverse patchNode) = Box3.expandByObject p b o
  | Object3D.mk n cs, b => by
    obtain ⟨h1, h2, h3, h4⟩ := patchNode_transform n
    simp only [Object3D.traverse, Box3.expandByObject, h1, h2, h3, h4]
    exact expandByObjectList_traverse_patchNode _ cs _
theorem expandByObjectList_traverse_patchNode (p : Matrix4) :
    ∀ (os : List Object3D) (b : Box3),
      Box3.expandByObjectList p b (Object3D.traverseList patchNode os)
        = Box3.expandByObjectList p b os
  | [], b => by simp [Object3D.traverseList, Box3.expandByObjectList]
  | c :: cs, b => by
    simp only [Object3D.traverseList, Box3.expandByObjectList]
    rw [expandByObject_traverse_patchNode p c b]
    exact expandByObjectList_traverse_patchNode p cs _
end

/-- The material patch leaves the bounding box as it is. -/
theorem setFromObject_traverse_patchNode (o : Object3D) :
    Box3.setFromObject (o.traverse patchNode) = Box3.setFromObject o := by
  simp [Box3.setFromObject, expandByObject_traverse_patchNode]

@[simp]
theorem Object3D.self_withSelf (o : Object3D) (n : Node) : (o.withSelf n).self = n := rfl

@[simp]
theorem Object3D.children_withSelf (o : Object3D) (n : Node) :
    (o.withSelf n).children = o.children := rfl

theorem traverse_self (f : Node → Node) (o : Object3D) : (o.traverse f).self = f o.self := by
  cases o; simp [Object3D.traverse, Object3D.self]

theorem onLoad_camera (s : AppState) (g : Object3D) :
    (onLoad s g).camera = fitCamera (Box3.setFromObject g) s.camera := by
  simp [onLoad, basicAnimate, requestAnimationFrame, cancelAnimationFrame,
    setFromObject_traverse_patchNode]

theorem onLoad_model_position (s : AppState) (g : Object3D) :
    (onLoad s g).model.map (fun m => m.self.position)
      = some (g.self.position.sub (Box3.setFromObject g).getCenter) := by
  have hp : (g.traverse patchNode).self.position = g.self.position := by
    rw [traverse_self]; exact (patchNode_transform g.self).1
  simp [onLoad, basicAnimate, requestAnimationFrame, cancelAnimationFrame, centerModel,
    setFromObject_traverse_patchNode, hp]

theorem stubMesh_box :
    Box3.setFromObject stubMesh = Box3.box ⟨9, -2, -3⟩ ⟨11, 2, 3⟩ := by
  simp [Box3.setFromObject, stubMesh, Box3.expandByObject, Box3.expandByObjectList,
    Box3.setFromPoints, Box3.applyMatrix4, Box3.corners, Box3.union,
    Matrix4.multiplyMatrices, Matrix4.compose, Matrix4.identity, Matrix3.identity,
    Matrix3.multiply, Matrix3.scale, Vector3.applyMatrix4, Vector3.applyMatrix3,
    Vector3.multiplyScalar, Vector3.add, Vector3.zero, Box3.expandByPoint, Vector3.min,
    Vector3.max]
  norm_num

/-- The box of the rotated mesh is the box of the rotated corners of the box of its
geometry, `[-7/5, 7/5]` in x and y, not the box of its rotated vertices. -/
theorem rotatedDiamond_box :
    Box3.setFromObject rotatedDiamond = Box3.box ⟨-7 / 5, -7 / 5, 0⟩ ⟨7 / 5, 7 / 5, 0⟩ := by
  simp [Box3.setFromObject, rotatedDiamond, Box3.expandByObject, Box3.expandByObjectList,
    Box3.setFromPoints, Box3.applyMatrix4, Box3.corners, Box3.union,
    Matrix4.multiplyMatrices, Matrix4.compose, Matrix4.identity, Matrix3.identity,
    Matrix3.multiply, Matrix3.scale, Vector3.applyMatrix4, Vector3.applyMatrix3,
    Vector3.multiplyScalar, Vector3.add, Vector3.zero, Box3.expandByPoint, Vector3.min,
    Vector3.max]
  norm_num

/-- The camera distance for the rotated mesh: 1.5 times 14/5. -/
theorem rotatedDiamond_camera_z (s : AppState) :
    (onLoad s rotatedDiamond).camera.position.z = 21 / 5 := by
  rw [onLoad_camera, rotatedDiamond_box]
  norm_num [fitCamera, Box3.getSize, Vector3.sub, mathMax]

theorem Object3D.withSelf_self (o : Object3D) : o.withSelf o.self = o := by
  cases o; rfl

/-- When the root of the loaded model has unit scale, as the root of a loaded scene has,
`model.scale.set(1, 1, 1)` changes nothing and the bounding box of the model at the end
of the success callback is still centered at the origin. -/
theorem onLoad_center_of_unit_scale (s : AppState) (g : Object3D)
    (h : g.self.scale = ⟨1, 1, 1⟩) :
    (onLoad s g).model.map (fun m => (Box3.setFromObject m).getCenter)
      = some Vector3.zero := by
  have hs : (centerModel (g.traverse patchNode)).self.scale = ⟨1, 1, 1⟩ := by
    simp [centerModel, traverse_self, (patchNode_transform g.self).2.2.1, h]
  have hn : ({ (centerModel (g.traverse patchNode)).self with scale := ⟨1, 1, 1⟩ } : Node)
      = (centerModel (g.traverse patchNode)).self := by
    rw [← hs]
  have hm : (onLoad s g).model = some (centerModel (g.traverse patchNode)) := by
    simp only [onLoad, basicAnimate, requestAnimationFrame, cancelAnimationFrame, gsapFrom,
      Object3D.self_withSelf, hn, Object3D.withSelf_self]
  rw [hm, Option.map_some', centerModel_eq_moved, setFromObject_moved,
    getCenter_translate_negate_getCenter]

/-! ## The success callback: centering and camera fit -/

/-- C1: whatever the position and the geometry of the loaded model, the bounding box of
the model after the centering step `model.position.sub(center)` is the box before the
step moved by `-center`, and its center is the origin; the success callback applies
this step to the patched `gltf.scene` and stores the result, with its scale set, in
`model`. -/
theorem centered_bounding_box_center_is_origin (model : Object3D) :
    Box3.setFromObject (centerModel model)
        = (Box3.setFromObject model).translate (Box3.setFromObject model).getCenter.negate
      ∧ (Box3.setFromObject (centerModel model)).getCenter = Vector3.zero
      ∧ (Box3.setFromObject (centerModel (model.traverse patchNode))).getCenter
          = Vector3.zero
      ∧ ∀ s : AppState,
          (onLoad s model).model
            = some ((centerModel (model.traverse patchNode)).withSelf
                { (centerModel (model.traverse patchNode)).self with
                    scale := ⟨1, 1, 1⟩ }) := by
  have h : ∀ m : Object3D, Box3.setFromObject (centerModel m)
      = (Box3.setFromObject m).translate (Box3.setFromObject m).getCenter.negate := by
    intro m
    rw [centerModel_eq_moved, setFromObject_moved]
  refine ⟨h model, ?_, ?_, ?_⟩
  · rw [h]; exact getCenter_translate_negate_getCenter _
  · rw [h]; exact getCenter_translate_negate_getCenter _
  · intro s
    rfl

/-- C2: after the success callback the camera's z is 1.5 times the largest extent of the
bounding box that the loaded model had before the centering step; the value is the same
from every earlier state (whatever the camera's z was) and for every displacement of the
model (whatever the center of the box is). -/
theorem camera_z_after_load (s : AppState) (gltfScene : Object3D) :
    (onLoad s gltfScene).camera.position.z
        = 1.5 * mathMax (Box3.setFromObject gltfScene).getSize.x
            (Box3.setFromObject gltfScene).getSize.y (Box3.setFromObject gltfScene).getSize.z
      ∧ (∀ s0 : AppState,
          (onLoad s0 gltfScene).camera.position.z = (onLoad s gltfScene).camera.position.z)
      ∧ (∀ d : Vector3,
          (onLoad s (gltfScene.moved d)).camera.position.z
            = (onLoad s gltfScene).camera.position.z) := by
  refine ⟨?_, ?_, ?_⟩
  · simp [onLoad_camera, fitCamera, mul_comm]
  · intro s0
    simp [onLoad_camera, fitCamera]
  · intro d
    simp [onLoad_camera, fitCamera, setFromObject_moved, getSize_translate]

/-- C3: for a model whose position is `(0,0,0)` when the loader resolves, after the
success callback `model.position` is minus the center of its bounding box and the
camera's z is 1.5 times the largest extent; when the box has size 2 x 4 x 6 and center
`(10,0,0)` this is `model.position = (-10,0,0)` and `camera.position.z = 9`. -/
theorem stub_model_position_and_camera (s : AppState) (gltfScene : Object3D)
    (h : gltfScene.self.position = Vector3.zero) :
    (onLoad s gltfScene).model.map (fun m => m.self.position)
        = some (Box3.setFromObject gltfScene).getCenter.negate
      ∧ (onLoad s gltfScene).camera.position.z
        = 1.5 * mathMax (Box3.setFromObject gltfScene).getSize.x
            (Box3.setFromObject gltfScene).getSize.y (Box3.setFromObject gltfScene).getSize.z
      ∧ ((Box3.setFromObject gltfScene).getSize = ⟨2, 4, 6⟩ →
          (Box3.setFromObject gltfScene).getCenter = ⟨10, 0, 0⟩ →
          (onLoad s gltfScene).model.map (fun m => m.self.position) = some ⟨-10, 0, 0⟩
            ∧ (onLoad s gltfScene).camera.position.z = 9) := by
  have hp : (onLoad s gltfScene).model.map (fun m => m.self.position)
      = some (Box3.setFromObject gltfScene).getCenter.negate := by
    rw [onLoad_model_position, h]
    simp [Vector3.sub, Vector3.negate, Vector3.zero]
  have hz : (onLoad s gltfScene).camera.position.z
      = 1.5 * mathMax (Box3.setFromObject gltfScene).getSize.x
          (Box3.setFromObject gltfScene).getSize.y (Box3.setFromObject gltfScene).getSize.z := by
    simp [onLoad_camera, fitCamera, mul_comm]
  refine ⟨hp, hz, ?_⟩
  intro hs hc
  refine ⟨?_, ?_⟩
  · rw [hp, hc]
    simp [Vector3.negate]
  · rw [hz, hs]
    norm_num [mathMax]

/-- The stub mesh of size 2 x 4 x 6 centered at `(10,0,0)`, loaded into the freshly
mounted component: `model.position = (-10,0,0)` and `camera.position.z = 9`. -/
theorem stub_model_position_and_camera_witness :
    stubMesh.self.position = Vector3.zero
      ∧ (Box3.setFromObject stubMesh).getSize = ⟨2, 4, 6⟩
      ∧ (Box3.setFromObject stubMesh).getCenter = ⟨10, 0, 0⟩
      ∧ (onLoad (mount 800 600 true) stubMesh).model.map (fun m => m.self.position)
          = some ⟨-10, 0, 0⟩
      ∧ (onLoad (mount 800 600 true) stubMesh).camera.position.z = 9 := by
  have h0 : stubMesh.self.position = Vector3.zero := rfl
  have hs : (Box3.setFromObject stubMesh).getSize = ⟨2, 4, 6⟩ := by
    rw [stubMesh_box]; norm_num [Box3.getSize, Vector3.sub]
  have hc : (Box3.setFromObject stubMesh).getCenter = ⟨10, 0, 0⟩ := by
    rw [stubMesh_box]; norm_num [Box3.getCenter, Vector3.add, Vector3.multiplyScalar]
  exact ⟨h0, hs, hc,
    (stub_model_position_and_camera (mount 800 600 true) stubMesh h0).2.2 hs hc⟩

/-! ## The success callback: materials and shadows -/

theorem patchNode_flags (n : Node) :
    (patchNode n).isMesh = n.isMesh ∧ (patchNode n).castShadow = true
      ∧ (patchNode n).receiveShadow = true
      ∧ ((patchNode n).material = none ↔ n.material = none) := by
  unfold patchNode
  split <;> simp

theorem patchNode_material (n : Node) (m : Material) (hm : (patchNode n).isMesh = true)
    (h : (patchNode n).material = some m) :
    m.metalness = 0.3 ∧ m.roughness = 0.4 ∧ m.envMapIntensity = 1.5 := by
  have hm0 : n.isMesh = true := by rw [← (patchNode_flags n).1]; exact hm
  unfold patchNode at h
  cases hmat : n.material with
  | none => simp [hm0, hmat] at h
  | some m0 =>
    simp only [hm0, hmat, Option.isSome_some, Bool.and_self, if_true, Option.map_some',
      Option.some.injEq] at h
    subst h
    exact ⟨rfl, rfl, rfl⟩

mutual
theorem nodes_traverse (f : Node → Node) :
    ∀ o : Object3D, (o.traverse f).nodes = o.nodes.map f
  | Object3D.mk n cs => by
    simp only [Object3D.traverse, Object3D.nodes, List.map_cons]
    rw [nodesList_traverseList f cs]
theorem nodesList_traverseList (f : Node → Node) :
    ∀ os : List Object3D,
      Object3D.nodesList (Object3D.traverseList f os) = (Object3D.nodesList os).map f
  | [] => by simp [Object3D.traverseList, Object3D.nodesList]
  | c :: cs => by
    simp only [Object3D.traverseList, Object3D.nodesList, List.map_append]
    rw [nodes_traverse f c, nodesList_traverseList f cs]
end

theorem Object3D.nodes_eq (o : Object3D) : o.nodes = o.self :: Object3D.nodesList o.children := by
  cases o; simp [Object3D.nodes, Object3D.self, Object3D.children]

theorem traverse_children (f : Node → Node) (o : Object3D) :
    (o.traverse f).children = Object3D.traverseList f o.children := by
  cases o; simp [Object3D.traverse, Object3D.children]

/-- The nodes of the model after the success callback: the patched root, with its new
position and scale, followed by the patched descendants. -/
theorem onLoad_modelNodes (s : AppState) (g : Object3D) :
    (onLoad s g).modelNodes
      = { patchNode g.self with
            position := g.self.position.sub (Box3.setFromObject g).getCenter,
            scale := ⟨1, 1, 1⟩ }
          :: (Object3D.nodesList g.children).map patchNode := by
  simp [AppState.modelNodes, onLoad, basicAnimate, requestAnimationFrame,
    cancelAnimationFrame, centerModel, gsapFrom, Object3D.nodes_eq, traverse_self,
    traverse_children, nodesList_traverseList, setFromObject_traverse_patchNode,
    (patchNode_transform g.self).1]

theorem stubMesh_loaded_nodes (s : AppState) :
    (onLoad s stubMesh).modelNodes = [loadedStubNode] := by
  rw [onLoad_modelNodes, stubMesh_box]
  simp [stubMesh, loadedStubNode, patchNode, Object3D.self, Object3D.children,
    Object3D.nodesList, Box3.getCenter, Vector3.add, Vector3.sub, Vector3.multiplyScalar]
  norm_num

/-- C4: for every loaded subtree (the loader gives every mesh node a material), the nodes
of the model after the success callback are the nodes of the subtree with the same
`isMesh` flags; every node has `castShadow` and `receiveShadow` set, and every mesh node
has a material with metalness 0.3, roughness 0.4 and envMapIntensity 1.5, whatever
values the asset carried. -/
theorem mesh_nodes_patched (s : AppState) (gltfScene : Object3D)
    (hmat : ∀ n ∈ gltfScene.nodes, n.isMesh = true → n.material.isSome = true) :
    (onLoad s gltfScene).modelNodes.map (fun n => n.isMesh)
        = gltfScene.nodes.map (fun n => n.isMesh)
      ∧ (∀ n ∈ (onLoad s gltfScene).modelNodes,
          n.castShadow = true ∧ n.receiveShadow = true)
      ∧ ∀ n ∈ (onLoad s gltfScene).modelNodes, n.isMesh = true →
          (∃ m, n.material = some m ∧ m.metalness = 0.3 ∧ m.roughness = 0.4
              ∧ m.envMapIntensity = 1.5)
            ∧ n.castShadow = true ∧ n.receiveShadow = true := by
  have hmesh : ∀ n : Node, (patchNode n).isMesh = n.isMesh := fun n => (patchNode_flags n).1
  have hpatched : ∀ n0 ∈ gltfScene.nodes, (patchNode n0).isMesh = true →
      ∃ m, (patchNode n0).material = some m ∧ m.metalness = 0.3 ∧ m.roughness = 0.4
        ∧ m.envMapIntensity = 1.5 := by
    intro n0 hn0 hm
    have h0 : n0.material.isSome = true := hmat n0 hn0 (by rw [← hmesh n0]; exact hm)
    cases hp : (patchNode n0).material with
    | none =>
      have hnone := (patchNode_flags n0).2.2.2.mp hp
      rw [hnone] at h0
      simp at h0
    | some m => exact ⟨m, rfl, patchNode_material n0 m hm hp⟩
  have hnodes := Object3D.nodes_eq gltfScene
  rw [onLoad_modelNodes]
  refine ⟨?_, ?_, ?_⟩
  · rw [hnodes]
    simp [hmesh, Function.comp_def]
  · intro n hn
    rw [List.mem_cons] at hn
    rcases hn with rfl | hn
    · exact ⟨(patchNode_flags gltfScene.self).2.1, (patchNode_flags gltfScene.self).2.2.1⟩
    · obtain ⟨n0, _, rfl⟩ := List.mem_map.mp hn
      exact ⟨(patchNode_flags n0).2.1, (patchNode_flags n0).2.2.1⟩
  · intro n hn hm
    rw [List.mem_cons] at hn
    rcases hn with rfl | hn
    · have hin : gltfScene.self ∈ gltfScene.nodes := by rw [hnodes]; exact List.mem_cons_self _ _
      exact ⟨hpatched gltfScene.self hin hm, (patchNode_flags gltfScene.self).2.1,
        (patchNode_flags gltfScene.self).2.2.1⟩
    · obtain ⟨n0, hn0, rfl⟩ := List.mem_map.mp hn
      have hin : n0 ∈ gltfScene.nodes := by rw [hnodes]; exact List.mem_cons_of_mem _ hn0
      exact ⟨hpatched n0 hin hm, (patchNode_flags n0).2.1, (patchNode_flags n0).2.2.1⟩

/-- The stub mesh, which has a material with other values, loaded into the freshly
mounted component: its node is a mesh node of the model and carries the fixed values. -/
theorem mesh_nodes_patched_witness :
    (∀ n ∈ stubMesh.nodes, n.isMesh = true → n.material.isSome = true)
      ∧ loadedStubNode ∈ (onLoad (mount 800 600 true) stubMesh).modelNodes
      ∧ loadedStubNode.isMesh = true
      ∧ ((∃ m, loadedStubNode.material = some m ∧ m.metalness = 0.3 ∧ m.roughness = 0.4
            ∧ m.envMapIntensity = 1.5)
          ∧ loadedStubNode.castShadow = true ∧ loadedStubNode.receiveShadow = true) := by
  have hmat : ∀ n ∈ stubMesh.nodes, n.isMesh = true → n.material.isSome = true := by
    intro n hn _
    simp only [stubMesh, Object3D.nodes, Object3D.nodesList, List.mem_singleton] at hn
    subst hn
    rfl
  have hmem : loadedStubNode ∈ (onLoad (mount 800 600 true) stubMesh).modelNodes := by
    rw [stubMesh_loaded_nodes]; exact List.mem_singleton.mpr rfl
  exact ⟨hmat, hmem, rfl,
    (mesh_nodes_patched (mount 800 600 true) stubMesh hmat).2.2 loadedStubNode hmem rfl⟩

/-! ## What each event leaves untouched -/

/-- A display refresh changes nothing but the animation frame callbacks, the handle
counter and the number of render calls. -/
theorem foldl_runCallback_shape (handles : List ℕ) :
    ∀ s : AppState, ∃ cbs ident n,
      handles.foldl runCallback s
        = { s with rafCallbacks := cbs, rafIdentifier := ident,
                   renderer := { s.renderer with renderCalls := n } } := by
  induction handles with
  | nil => intro s; exact ⟨s.rafCallbacks, s.rafIdentifier, s.renderer.renderCalls, rfl⟩
  | cons h hs ih =>
    intro s
    obtain ⟨cbs, ident, n, e⟩ := ih (runCallback s h)
    rw [List.foldl_cons, e]
    unfold runCallback
    split
    · exact ⟨cbs, ident, n, rfl⟩
    · exact ⟨cbs, ident, n, rfl⟩

theorem runFrame_shape (s : AppState) :
    ∃ cbs ident n,
      runFrame s
        = { s with rafCallbacks := cbs, rafIdentifier := ident,
                   renderer := { s.renderer with renderCalls := n } } :=
  foldl_runCallback_shape s.rafCallbacks s

/-- A `resize` event changes nothing but the aspect ratio, the projection and the size
of the renderer, whatever listeners are registered. -/
theorem foldl_runListener_shape (ls : List Listener) :
    ∀ s : AppState, ∃ a p w h,
      ls.foldl runListener s
        = { s with camera := { s.camera with aspect := a, projectionAspect := p },
                   renderer := { s.renderer with width := w, height := h } } := by
  induction ls with
  | nil =>
    intro s
    exact ⟨s.camera.aspect, s.camera.projectionAspect, s.renderer.width, s.renderer.height, rfl⟩
  | cons l ls ih =>
    intro s
    obtain ⟨a, p, w, h, e⟩ := ih (runListener s l)
    rw [List.foldl_cons, e]
    cases l
    exact ⟨a, p, w, h, rfl⟩

theorem dispatchResize_shape (s : AppState) :
    ∃ a p w h,
      dispatchResize s
        = { s with camera := { s.camera with aspect := a, projectionAspect := p },
                   renderer := { s.renderer with width := w, height := h } } :=
  foldl_runListener_shape s.resizeListeners s

theorem dispatchResize_registered (s : AppState)
    (h : s.resizeListeners = [Listener.handleResize]) : dispatchResize s = handleResize s := by
  simp [dispatchResize, h, runListener]

theorem dispatchResize_unregistered (s : AppState) (h : s.resizeListeners = []) :
    dispatchResize s = s := by
  simp [dispatchResize, h]

/-- No event touches the listeners, Lenis or the dispose count of the renderer. -/
theorem step_teardown_fields (s : AppState) (ev : Event) :
    (step s ev).resizeListeners = s.resizeListeners
      ∧ (step s ev).lenisDestroyCalls = s.lenisDestroyCalls
      ∧ (step s ev).renderer.disposeCalls = s.renderer.disposeCalls := by
  cases ev with
  | frame =>
    obtain ⟨cbs, ident, n, e⟩ := runFrame_shape s
    simp only [step, e, and_self]
  | resize w h =>
    obtain ⟨a, p, w1, h1, e⟩ := dispatchResize_shape { s with innerWidth := w, innerHeight := h }
    simp only [step, e, and_self]
  | loadSuccess g =>
    simp [step, onLoad, basicAnimate, requestAnimationFrame, cancelAnimationFrame]
  | loadProgress l t => simp [step, onProgress]
  | loadError e => simp [step, onError]

theorem run_teardown_fields (events : List Event) :
    ∀ s : AppState, (run s events).resizeListeners = s.resizeListeners
      ∧ (run s events).lenisDestroyCalls = s.lenisDestroyCalls
      ∧ (run s events).renderer.disposeCalls = s.renderer.disposeCalls := by
  induction events with
  | nil => intro s; exact ⟨rfl, rfl, rfl⟩
  | cons ev evs ih =>
    intro s
    obtain ⟨h1, h2, h3⟩ := ih (step s ev)
    obtain ⟨k1, k2, k3⟩ := step_teardown_fields s ev
    exact ⟨h1.trans k1, h2.trans k2, h3.trans k3⟩

theorem mount_resizeListeners (w h : ℕ) (c : Bool) :
    (mount w h c).resizeListeners = [Listener.handleResize] := by
  simp [mount, addEventListener, basicAnimate, requestAnimationFrame]

theorem run_mount_resizeListeners (w h : ℕ) (c : Bool) (events : List Event) :
    (run (mount w h c) events).resizeListeners = [Listener.handleResize] := by
  rw [(run_teardown_fields events _).1, mount_resizeListeners]

theorem run_append (s : AppState) (es fs : List Event) :
    run s (es ++ fs) = run (run s es) fs := by
  simp [run, List.foldl_append]

/-! ## Resize -/

/-- C5: for every viewport size `w` by `h` with `w > 0` and `h > 0`, `handleResize` run
with `window.innerWidth = w` and `window.innerHeight = h` leaves `camera.aspect = w / h`
(a positive number whose product with `h` is `w`), computes the projection from it and
sets the size of the renderer to `(w, h)`; the same holds after a `resize` event in any
state that the mounted component has reached. -/
theorem resize_sets_aspect_and_size (w h : ℕ) (hw : 0 < w) (hh : 0 < h) :
    (∀ s : AppState, s.innerWidth = w → s.innerHeight = h →
        (handleResize s).camera.aspect = (w : ℚ) / (h : ℚ)
          ∧ (handleResize s).camera.aspect * (h : ℚ) = (w : ℚ)
          ∧ 0 < (handleResize s).camera.aspect
          ∧ (handleResize s).camera.projectionAspect = (w : ℚ) / (h : ℚ)
          ∧ (handleResize s).renderer.width = w ∧ (handleResize s).renderer.height = h)
      ∧ ∀ (w0 h0 : ℕ) (c : Bool) (events : List Event),
          (step (run (mount w0 h0 c) events) (Event.resize w h)).camera.aspect
              = (w : ℚ) / (h : ℚ)
            ∧ (step (run (mount w0 h0 c) events) (Event.resize w h)).renderer.width = w
            ∧ (step (run (mount w0 h0 c) events) (Event.resize w h)).renderer.height = h := by
  have hq : (0 : ℚ) < (h : ℚ) := by exact_mod_cast hh
  have wq : (0 : ℚ) < (w : ℚ) := by exact_mod_cast hw
  refine ⟨?_, ?_⟩
  · intro s hW hH
    have ha : (handleResize s).camera.aspect = (w : ℚ) / (h : ℚ) := by
      rw [← hW, ← hH]; rfl
    have hp : (handleResize s).camera.projectionAspect = (w : ℚ) / (h : ℚ) := by
      rw [← hW, ← hH]; rfl
    have hrw : (handleResize s).renderer.width = w := by rw [← hW]; rfl
    have hrh : (handleResize s).renderer.height = h := by rw [← hH]; rfl
    refine ⟨ha, ?_, ?_, hp, hrw, hrh⟩
    · rw [ha]; field_simp
    · rw [ha]; exact div_pos wq hq
  · intro w0 h0 c events
    have hl := run_mount_resizeListeners w0 h0 c events
    have e : step (run (mount w0 h0 c) events) (Event.resize w h)
        = handleResize { run (mount w0 h0 c) events with innerWidth := w, innerHeight := h } :=
      dispatchResize_registered
        { run (mount w0 h0 c) events with innerWidth := w, innerHeight := h } hl
    rw [e]
    exact ⟨rfl, rfl, rfl⟩

/-- A window resized to 1024 x 768: the aspect ratio is 4/3 and the renderer has that
size, both for the handler on its own and for a `resize` event after mount. -/
theorem resize_sets_aspect_and_size_witness :
    (handleResize { mount 800 600 true with innerWidth := 1024, innerHeight := 768 }).camera.aspect
        = 4 / 3
      ∧ (handleResize
          { mount 800 600 true with innerWidth := 1024, innerHeight := 768 }).renderer.width
        = 1024
      ∧ (step (run (mount 800 600 true) [Event.frame]) (Event.resize 1024 768)).camera.aspect
        = 4 / 3
      ∧ (step (run (mount 800 600 true) [Event.frame]) (Event.resize 1024 768)).renderer.height
        = 768 := by
  have h := resize_sets_aspect_and_size 1024 768 (by decide) (by decide)
  have h1 := h.1 { mount 800 600 true with innerWidth := 1024, innerHeight := 768 } rfl rfl
  have h2 := h.2 800 600 true [Event.frame]
  refine ⟨?_, h1.2.2.2.2.1, ?_, h2.2.2⟩
  · rw [h1.1]; norm_num
  · rw [h2.1]; norm_num

/-! ## Unmount -/

theorem step_unregistered (s : AppState) (ev : Event) (h : s.resizeListeners = []) :
    (step s ev).camera.aspect = s.camera.aspect
      ∧ (step s ev).camera.projectionAspect = s.camera.projectionAspect
      ∧ (step s ev).renderer.width = s.renderer.width
      ∧ (step s ev).renderer.height = s.renderer.height := by
  cases ev with
  | frame =>
    obtain ⟨cbs, ident, n, e⟩ := runFrame_shape s
    simp only [step, e, and_self]
  | resize w0 h0 =>
    have e : step s (Event.resize w0 h0) = { s with innerWidth := w0, innerHeight := h0 } :=
      dispatchResize_unregistered { s with innerWidth := w0, innerHeight := h0 } h
    rw [e]
    exact ⟨rfl, rfl, rfl, rfl⟩
  | loadSuccess g =>
    simp [step, onLoad, fitCamera, basicAnimate, requestAnimationFrame, cancelAnimationFrame]
  | loadProgress l t => simp [step, onProgress]
  | loadError e => simp [step, onError]

theorem run_unregistered (events : List Event) :
    ∀ s : AppState, s.resizeListeners = [] →
      (run s events).camera.aspect = s.camera.aspect
        ∧ (run s events).camera.projectionAspect = s.camera.projectionAspect
        ∧ (run s events).renderer.width = s.renderer.width
        ∧ (run s events).renderer.height = s.renderer.height := by
  induction events with
  | nil => intro s _; exact ⟨rfl, rfl, rfl, rfl⟩
  | cons ev evs ih =>
    intro s h
    obtain ⟨k1, k2, k3, k4⟩ := step_unregistered s ev h
    obtain ⟨h1, h2, h3, h4⟩ := ih (step s ev) ((step_teardown_fields s ev).1.trans h)
    exact ⟨h1.trans k1, h2.trans k2, h3.trans k3, h4.trans k4⟩

/-- C7: in every state the mounted component has reached, `handleResize` is the
registered `resize` listener; the cleanup function removes it and calls `lenis.destroy`
and `renderer.dispose`, each once (the counts are 1 after cleanup and stay 1), and
whatever happens after teardown, `resize` events included, the aspect ratio of the
camera, its projection and the size of the renderer stay as cleanup found them. -/
theorem cleanup_releases_and_unregisters (w0 h0 : ℕ) (c : Bool) (events after : List Event) :
    (run (mount w0 h0 c) events).resizeListeners = [Listener.handleResize]
      ∧ (cleanup (run (mount w0 h0 c) events)).resizeListeners = []
      ∧ (cleanup (run (mount w0 h0 c) events)).lenisDestroyCalls = 1
      ∧ (cleanup (run (mount w0 h0 c) events)).renderer.disposeCalls = 1
      ∧ (run (cleanup (run (mount w0 h0 c) events)) after).lenisDestroyCalls = 1
      ∧ (run (cleanup (run (mount w0 h0 c) events)) after).renderer.disposeCalls = 1
      ∧ (run (cleanup (run (mount w0 h0 c) events)) after).camera.aspect
          = (run (mount w0 h0 c) events).camera.aspect
      ∧ (run (cleanup (run (mount w0 h0 c) events)) after).camera.projectionAspect
          = (run (mount w0 h0 c) events).camera.projectionAspect
      ∧ (run (cleanup (run (mount w0 h0 c) events)) after).renderer.width
          = (run (mount w0 h0 c) events).renderer.width
      ∧ (run (cleanup (run (mount w0 h0 c) events)) after).renderer.height
          = (run (mount w0 h0 c) events).renderer.height := by
  have hl := run_mount_resizeListeners w0 h0 c events
  obtain ⟨_, hd, hp⟩ := run_teardown_fields events (mount w0 h0 c)
  have hl0 : (cleanup (run (mount w0 h0 c) events)).resizeListeners = [] := by
    simp [cleanup, removeEventListener, hl]
  have hd0 : (run (mount w0 h0 c) events).lenisDestroyCalls = 0 := hd.trans rfl
  have hp0 : (run (mount w0 h0 c) events).renderer.disposeCalls = 0 := hp.trans rfl
  have hd1 : (cleanup (run (mount w0 h0 c) events)).lenisDestroyCalls = 1 := by
    show (run (mount w0 h0 c) events).lenisDestroyCalls + 1 = 1
    rw [hd0]
  have hp1 : (cleanup (run (mount w0 h0 c) events)).renderer.disposeCalls = 1 := by
    show (run (mount w0 h0 c) events).renderer.disposeCalls + 1 = 1
    rw [hp0]
  obtain ⟨_, ad, ap⟩ := run_teardown_fields after (cleanup (run (mount w0 h0 c) events))
  obtain ⟨a1, a2, a3, a4⟩ := run_unregistered after _ hl0
  exact ⟨hl, hl0, hd1, hp1, ad.trans hd1, ap.trans hp1, a1, a2, a3, a4⟩

/-! ## Load failure -/

theorem step_without_load (s : AppState) (ev : Event) (h : ev.isLoadSuccess = false) :
    (step s ev).sceneChildren = s.sceneChildren ∧ (step s ev).model = s.model
      ∧ (step s ev).tweens = s.tweens ∧ (step s ev).camera.position = s.camera.position := by
  cases ev with
  | frame =>
    obtain ⟨cbs, ident, n, e⟩ := runFrame_shape s
    simp only [step, e, and_self]
  | resize w0 h0 =>
    obtain ⟨a, p, w1, h1, e⟩ :=
      dispatchResize_shape { s with innerWidth := w0, innerHeight := h0 }
    simp only [step, e, and_self]
  | loadSuccess g => simp [Event.isLoadSuccess] at h
  | loadProgress l t => simp [step, onProgress]
  | loadError e => simp [step, onError]

theorem run_without_load (events : List Event) :
    ∀ s : AppState, (∀ ev ∈ events, ev.isLoadSuccess = false) →
      (run s events).sceneChildren = s.sceneChildren ∧ (run s events).model = s.model
        ∧ (run s events).tweens = s.tweens
        ∧ (run s events).camera.position = s.camera.position := by
  induction events with
  | nil => intro s _; exact ⟨rfl, rfl, rfl, rfl⟩
  | cons ev evs ih =>
    intro s h
    obtain ⟨k1, k2, k3, k4⟩ := step_without_load s ev (h ev (List.mem_cons_self _ _))
    obtain ⟨h1, h2, h3, h4⟩ :=
      ih (step s ev) (fun e he => h e (List.mem_cons_of_mem _ he))
    exact ⟨h1.trans k1, h2.trans k2, h3.trans k3, h4.trans k4⟩

/-- C8: in every state and for every error value the error callback adds one line to
the console and leaves the scene's child list, the camera (position and aspect), the
`model` variable, the tweens, the renderer and the pending frame callbacks as they were,
and so does the progress callback; when no success callback has run since mount, the
child list is the two lights, `model` is undefined and no tween is registered, before
and after the error callback. -/
theorem error_callback_only_logs (s : AppState) (error : String) (loaded total : ℕ) :
    ((onError s error).sceneChildren = s.sceneChildren
        ∧ (onError s error).camera = s.camera
        ∧ (onError s error).model = s.model
        ∧ (onError s error).tweens = s.tweens
        ∧ (onError s error).renderer = s.renderer
        ∧ (onError s error).rafCallbacks = s.rafCallbacks
        ∧ (onError s error).console = s.console ++ [LogEntry.error error])
      ∧ ((onProgress s loaded total).sceneChildren = s.sceneChildren
        ∧ (onProgress s loaded total).camera = s.camera
        ∧ (onProgress s loaded total).model = s.model
        ∧ (onProgress s loaded total).tweens = s.tweens
        ∧ (onProgress s loaded total).renderer = s.renderer
        ∧ (onProgress s loaded total).rafCallbacks = s.rafCallbacks
        ∧ (onProgress s loaded total).console = s.console ++ [LogEntry.progress loaded total])
      ∧ ∀ (w0 h0 : ℕ) (c : Bool) (events : List Event),
          (∀ ev ∈ events, ev.isLoadSuccess = false) →
          (run (mount w0 h0 c) events).sceneChildren
              = [SceneChild.pointLight, SceneChild.ambientLight]
            ∧ (run (mount w0 h0 c) events).model = none
            ∧ (run (mount w0 h0 c) events).tweens = []
            ∧ (onError (run (mount w0 h0 c) events) error).sceneChildren
              = [SceneChild.pointLight, SceneChild.ambientLight]
            ∧ (onError (run (mount w0 h0 c) events) error).model = none
            ∧ (onError (run (mount w0 h0 c) events) error).tweens = [] := by
  refine ⟨⟨rfl, rfl, rfl, rfl, rfl, rfl, rfl⟩, ⟨rfl, rfl, rfl, rfl, rfl, rfl, rfl⟩, ?_⟩
  intro w0 h0 c events h
  obtain ⟨h1, h2, h3, _⟩ := run_without_load events (mount w0 h0 c) h
  have m1 : (mount w0 h0 c).sceneChildren
      = [SceneChild.pointLight, SceneChild.ambientLight] := by
    simp [mount, addEventListener, basicAnimate, requestAnimationFrame, sceneAdd]
  have m2 : (mount w0 h0 c).model = none := rfl
  have m3 : (mount w0 h0 c).tweens = [] := rfl
  exact ⟨h1.trans m1, h2.trans m2, h3.trans m3, h1.trans m1, h2.trans m2, h3.trans m3⟩

/-- A failed load after a frame, a progress report and a resize: the scene holds the two
lights, `model` is undefined and no tween is registered. -/
theorem error_callback_only_logs_witness :
    (∀ ev ∈ [Event.frame, Event.loadProgress 50 100, Event.resize 1024 768],
        ev.isLoadSuccess = false)
      ∧ (onError (run (mount 800 600 true)
            [Event.frame, Event.loadProgress 50 100, Event.resize 1024 768])
          "404").sceneChildren = [SceneChild.pointLight, SceneChild.ambientLight]
      ∧ (onError (run (mount 800 600 true)
            [Event.frame, Event.loadProgress 50 100, Event.resize 1024 768])
          "404").model = none
      ∧ (onError (run (mount 800 600 true)
            [Event.frame, Event.loadProgress 50 100, Event.resize 1024 768])
          "404").tweens = [] := by
  have hev : ∀ ev ∈ [Event.frame, Event.loadProgress 50 100, Event.resize 1024 768],
      ev.isLoadSuccess = false := by
    intro ev hev
    simp only [List.mem_cons, List.mem_singleton, List.not_mem_nil, or_false] at hev
    rcases hev with rfl | rfl | rfl <;> rfl
  have h := (error_callback_only_logs (mount 800 600 true) "404" 50 100).2.2 800 600 true
    [Event.frame, Event.loadProgress 50 100, Event.resize 1024 768] hev
  exact ⟨hev, h.2.2.2.1, h.2.2.2.2.1, h.2.2.2.2.2⟩

/-! ## Resize after load -/

theorem run_resizes_keep (sizes : List (ℕ × ℕ)) :
    ∀ s : AppState,
      (run s (sizes.map fun p => Event.resize p.1 p.2)).model = s.model
        ∧ (run s (sizes.map fun p => Event.resize p.1 p.2)).camera.position
          = s.camera.position := by
  intro s
  have h := run_without_load (sizes.map fun p => Event.resize p.1 p.2) s (by
    intro ev hev
    obtain ⟨p, _, rfl⟩ := List.mem_map.mp hev
    rfl)
  exact ⟨h.2.1, h.2.2.2⟩

/-- C9: `handleResize` changes nothing but `camera.aspect`, the projection and the size
of the renderer; hence after a successful load and any sequence of `resize` events,
`model.position` is still the position minus the box center and `camera.position` is
still the one the success callback left, with z 1.5 times the largest extent. -/
theorem resize_keeps_centering_and_distance (s : AppState) (gltfScene : Object3D)
    (sizes : List (ℕ × ℕ)) :
    (∀ s0 : AppState,
        handleResize s0
          = { s0 with
                camera := { s0.camera with
                  aspect := (s0.innerWidth : ℚ) / (s0.innerHeight : ℚ),
                  projectionAspect := (s0.innerWidth : ℚ) / (s0.innerHeight : ℚ) },
                renderer := { s0.renderer with
                  width := s0.innerWidth, height := s0.innerHeight } })
      ∧ (run (onLoad s gltfScene) (sizes.map fun p => Event.resize p.1 p.2)).model
          = (onLoad s gltfScene).model
      ∧ (run (onLoad s gltfScene) (sizes.map fun p => Event.resize p.1 p.2)).camera.position
          = (onLoad s gltfScene).camera.position
      ∧ (run (onLoad s gltfScene) (sizes.map fun p => Event.resize p.1 p.2)).model.map
            (fun m => m.self.position)
          = some (gltfScene.self.position.sub (Box3.setFromObject gltfScene).getCenter)
      ∧ (run (onLoad s gltfScene)
            (sizes.map fun p => Event.resize p.1 p.2)).camera.position.z
          = 1.5 * mathMax (Box3.setFromObject gltfScene).getSize.x
              (Box3.setFromObject gltfScene).getSize.y
              (Box3.setFromObject gltfScene).getSize.z := by
  obtain ⟨h1, h2⟩ := run_resizes_keep sizes (onLoad s gltfScene)
  refine ⟨fun _ => rfl, h1, h2, ?_, ?_⟩
  · rw [h1, onLoad_model_position]
  · rw [h2]
    simp [onLoad_camera, fitCamera, mul_comm]

/-! ## The scale tween -/

/-- C10: the success callback registers the tween `gsap.from(model.scale, ...)` with
start values `(1,1,1)` and, because `model.scale.set(1, 1, 1)` ran before, end values
`(1,1,1)`, whatever scale the asset carried; for every easing function and every
instant the tween writes `(1,1,1)`, and the scale of the model after the callback is
`(1,1,1)`. -/
theorem scale_tween_is_constant (s : AppState) (gltfScene : Object3D) (easeFn : ℚ → ℚ)
    (t : ℚ) :
    (onLoad s gltfScene).tweens
        = s.tweens ++ [Tween.scale ⟨⟨1, 1, 1⟩, ⟨1, 1, 1⟩, 2, "power3.out"⟩,
            Tween.rotationY 1 8 "none" (-1)]
      ∧ (∀ tw : ScaleTween, Tween.scale tw ∈ (onLoad s gltfScene).tweens →
          Tween.scale tw ∉ s.tweens → tw.valueAt easeFn t = ⟨1, 1, 1⟩)
      ∧ (onLoad s gltfScene).model.map (fun m => m.self.scale) = some ⟨1, 1, 1⟩ := by
  have ht : (onLoad s gltfScene).tweens
      = s.tweens ++ [Tween.scale ⟨⟨1, 1, 1⟩, ⟨1, 1, 1⟩, 2, "power3.out"⟩,
          Tween.rotationY 1 8 "none" (-1)] := by
    simp [onLoad, basicAnimate, requestAnimationFrame, cancelAnimationFrame, gsapFrom]
  refine ⟨ht, ?_, ?_⟩
  · intro tw hin hnot
    rw [ht] at hin
    simp only [List.mem_append, List.mem_cons, List.mem_singleton, List.not_mem_nil,
      or_false, Tween.scale.injEq] at hin
    rcases hin with hin | hin | hin
    · exact absurd hin hnot
    · subst hin
      simp [ScaleTween.valueAt, Vector3.add, Vector3.sub, Vector3.multiplyScalar]
    · cases hin
  · simp [onLoad, basicAnimate, requestAnimationFrame, cancelAnimationFrame, gsapFrom]

/-- The stub mesh authored with scale `(3,3,3)`, loaded after mount: the scale tween
found among the registered tweens writes `(1,1,1)` half a second in, under the cubic
ease-out. -/
theorem scale_tween_is_constant_witness :
    Tween.scale ⟨⟨1, 1, 1⟩, ⟨1, 1, 1⟩, 2, "power3.out"⟩
        ∈ (onLoad (mount 800 600 true)
            (stubMesh.withSelf { stubMesh.self with scale := ⟨3, 3, 3⟩ })).tweens
      ∧ Tween.scale ⟨⟨1, 1, 1⟩, ⟨1, 1, 1⟩, 2, "power3.out"⟩ ∉ (mount 800 600 true).tweens
      ∧ (ScaleTween.mk ⟨1, 1, 1⟩ ⟨1, 1, 1⟩ 2 "power3.out").valueAt
          (fun p => 1 - (1 - p) ^ 3) (1 / 2) = ⟨1, 1, 1⟩ := by
  have h := scale_tween_is_constant (mount 800 600 true)
    (stubMesh.withSelf { stubMesh.self with scale := ⟨3, 3, 3⟩ })
    (fun p => 1 - (1 - p) ^ 3) (1 / 2)
  have hin : Tween.scale ⟨⟨1, 1, 1⟩, ⟨1, 1, 1⟩, 2, "power3.out"⟩
      ∈ (onLoad (mount 800 600 true)
          (stubMesh.withSelf { stubMesh.self with scale := ⟨3, 3, 3⟩ })).tweens := by
    rw [h.1]; simp
  have hnot : Tween.scale ⟨⟨1, 1, 1⟩, ⟨1, 1, 1⟩, 2, "power3.out"⟩
      ∉ (mount 800 600 true).tweens := by
    show _ ∉ ([] : List Tween)
    exact List.not_mem_nil _
  exact ⟨hin, hnot, h.2.1 _ hin hnot⟩

/-! ## The render loop -/

/-- Running the callbacks `rem`, which head the map, renders once per callback and
leaves as many callbacks pending as there were; no handle 0 appears. -/
theorem foldl_runCallback_count (rem : List ℕ) :
    ∀ (fresh : List ℕ) (s : AppState), s.rafCallbacks = rem ++ fresh →
      (rem.foldl runCallback s).renderer.renderCalls = s.renderer.renderCalls + rem.length
        ∧ (rem.foldl runCallback s).rafCallbacks.length = rem.length + fresh.length
        ∧ ((∀ h ∈ s.rafCallbacks, 0 < h) →
            ∀ h ∈ (rem.foldl runCallback s).rafCallbacks, 0 < h) := by
  induction rem with
  | nil =>
    intro fresh s hs
    refine ⟨rfl, ?_, fun hp => hp⟩
    simp [hs]
  | cons r rs ih =>
    intro fresh s hs
    have hmem : r ∈ s.rafCallbacks := by rw [hs]; simp
    have hstep : runCallback s r
        = basicAnimate { s with rafCallbacks := rs ++ fresh } := by
      unfold runCallback
      rw [if_pos hmem, hs]
      simp
    have hcb : (runCallback s r).rafCallbacks = rs ++ (fresh ++ [s.rafIdentifier + 1]) := by
      rw [hstep]
      simp [basicAnimate, requestAnimationFrame]
    have hrc : (runCallback s r).renderer.renderCalls = s.renderer.renderCalls + 1 := by
      rw [hstep]; rfl
    obtain ⟨i1, i2, i3⟩ := ih (fresh ++ [s.rafIdentifier + 1]) (runCallback s r) hcb
    rw [List.foldl_cons]
    refine ⟨?_, ?_, ?_⟩
    · rw [i1, hrc, List.length_cons]; omega
    · rw [i2]; simp; omega
    · intro hp
      apply i3
      intro h hh
      rw [hcb] at hh
      rw [hs] at hp
      simp only [List.mem_append, List.mem_singleton] at hh
      rcases hh with hh | hh | hh
      · exact hp h (List.mem_append_left _ (List.mem_cons_of_mem _ hh))
      · exact hp h (List.mem_append_right _ hh)
      · omega

/-- The next display refresh renders once for every pending callback. -/
theorem rendersInNextFrame_eq (s : AppState) : rendersInNextFrame s = s.rafCallbacks.length := by
  have h := (foldl_runCallback_count s.rafCallbacks [] s (by simp)).1
  unfold rendersInNextFrame runFrame
  rw [h]; omega

theorem runFrame_pending (s : AppState) :
    (runFrame s).rafCallbacks.length = s.rafCallbacks.length
      ∧ ((∀ h ∈ s.rafCallbacks, 0 < h) → ∀ h ∈ (runFrame s).rafCallbacks, 0 < h) := by
  have h := foldl_runCallback_count s.rafCallbacks [] s (by simp)
  exact ⟨by simpa using h.2.1, h.2.2⟩

/-- One event: a success callback adds one pending callback (its `cancelAnimationFrame`
removes none, as no handle is 0), every other event leaves the number as it is. -/
theorem step_pending (s : AppState) (ev : Event) (hp : ∀ h ∈ s.rafCallbacks, 0 < h) :
    (step s ev).rafCallbacks.length
        = s.rafCallbacks.length + (if ev.isLoadSuccess then 1 else 0)
      ∧ ∀ h ∈ (step s ev).rafCallbacks, 0 < h := by
  cases ev with
  | frame =>
    obtain ⟨h1, h2⟩ := runFrame_pending s
    exact ⟨by simpa [step, Event.isLoadSuccess] using h1, h2 hp⟩
  | resize w0 h0 =>
    obtain ⟨a, p, w1, h1, e⟩ :=
      dispatchResize_shape { s with innerWidth := w0, innerHeight := h0 }
    simp only [step, e, Event.isLoadSuccess]
    exact ⟨by simp, hp⟩
  | loadSuccess g =>
    have h0 : basicAnimateAsHandle ∉ s.rafCallbacks := by
      intro hin
      have := hp _ hin
      simp [basicAnimateAsHandle] at this
    have e : (step s (Event.loadSuccess g)).rafCallbacks
        = s.rafCallbacks ++ [s.rafIdentifier + 1] := by
      simp [step, onLoad, basicAnimate, requestAnimationFrame, cancelAnimationFrame,
        List.erase_of_not_mem h0]
    rw [e]
    refine ⟨by simp [Event.isLoadSuccess], ?_⟩
    intro h hh
    simp only [List.mem_append, List.mem_singleton] at hh
    rcases hh with hh | hh
    · exact hp h hh
    · omega
  | loadProgress l t => exact ⟨by simp [step, onProgress, Event.isLoadSuccess], hp⟩
  | loadError e => exact ⟨by simp [step, onError, Event.isLoadSuccess], hp⟩

theorem run_pending (events : List Event) :
    ∀ s : AppState, (∀ h ∈ s.rafCallbacks, 0 < h) →
      (run s events).rafCallbacks.length
        = s.rafCallbacks.length + events.countP (fun ev => ev.isLoadSuccess) := by
  induction events with
  | nil => intro s _; simp [run]
  | cons ev evs ih =>
    intro s hp
    obtain ⟨h1, h2⟩ := step_pending s ev hp
    have h3 := ih (step s ev) h2
    have e : run s (ev :: evs) = run (step s ev) evs := rfl
    rw [e, h3, h1, List.countP_cons]
    omega

/-- The number of renders in the next display refresh, in any state the mounted
component has reached: one, plus one for every success callback that has run. -/
theorem renders_per_frame (w h : ℕ) (c : Bool) (events : List Event) :
    rendersInNextFrame (run (mount w h c) events)
      = 1 + events.countP (fun ev => ev.isLoadSuccess) := by
  have hm : (mount w h c).rafCallbacks = [1] := by
    simp [mount, addEventListener, basicAnimate, requestAnimationFrame]
  rw [rendersInNextFrame_eq, run_pending events (mount w h c) (by rw [hm]; simp), hm]
  rfl

/-- C6, as the code behaves: before the success callback every display refresh renders
once; after it, `cancelAnimationFrame(basicAnimate)` having removed nothing and
`basicAnimate()` having started a second chain of callbacks, every display refresh
renders twice, however many refreshes come before or after. -/
theorem two_renders_per_frame_after_load (w h : ℕ) (c : Bool) (before after : ℕ)
    (gltfScene : Object3D) :
    rendersInNextFrame (run (mount w h c) (List.replicate before Event.frame)) = 1
      ∧ rendersInNextFrame
          (run (mount w h c)
            (List.replicate before Event.frame ++ Event.loadSuccess gltfScene
              :: List.replicate after Event.frame)) = 2 := by
  have hf : ∀ n : ℕ, (List.replicate n Event.frame).countP (fun ev => ev.isLoadSuccess) = 0 := by
    intro n
    rw [List.countP_eq_zero]
    intro ev hev
    rw [List.eq_of_mem_replicate hev]
    simp [Event.isLoadSuccess]
  refine ⟨?_, ?_⟩
  · rw [renders_per_frame, hf]
  · rw [renders_per_frame, List.countP_append, List.countP_cons, hf, hf]
    simp [Event.isLoadSuccess]

end BrandDesign
